import Mathlib

/-!
Shallow embedding of the cue-rs handle registry (go-cue cgo bridge).

The repository wraps the external CUE evaluation engine behind a handle
registry: compiled values live in a map from integer handles to engine
values, handles are issued from a monotonically increasing counter, and all
caller-facing operations (compile, free, validate, to_json, to_yaml, unify)
resolve handles through that map.

The CUE engine itself (cuelang.org/go) is an external dependency, opaque to
this layer.  It is modelled abstractly: an engine value carries its error
state, its concreteness, and the outcome of marshalling it to JSON and YAML;
engine compilation and unification are arbitrary total functions supplied as
parameters (CompileString and Unify in the Go API are total: they always
return a Value, recording failures inside it).

Two registry iterations are embedded:
 * the CueContext version of src/go-cue/go_cue.go (counter starts at 1 and is
   incremented before use, so the first issued handle is 2), the primary one;
 * the earlier iteration of src/unnamed/part_001 (counter starts at 1 and is
   incremented after use, so the first issued handle is 1), namespace P1.

Handle values are modelled as Nat.  The Go nextID counter has type uintptr,
whose increment wraps modulo 2 ^ w, where w is the target word size (32 or
64 bits depending on GOARCH).  The definitions suffixed _wrap model this
wrap-around faithfully, parameterized by w, and are the basis for the
counter-lifetime properties (monotonicity, handle reuse, which handle
values can ever be issued): on a 32-bit target the wrap is reachable within
a process's life, since freed entries keep the map small while the counter
keeps advancing.  The unsuffixed new_value uses an unbounded counter; it
agrees with new_value_wrap on every state whose counter has not reached
2 ^ w - 1 (new_value_wrap_eq_of_lt), and the per-operation properties below
are stated on it together with the registry invariant RegInv, which the
wrapped operations preserve for as long as no wrap has occurred
(ReachableNoWrap).
-/

/-- Model of an engine value (cue.Value), opaque to the registry layer.
A value records, per the spec's data model: whether a compile/unify error is
stored inside it together with its message, whether the value is fully
concrete (no unresolved open constraints), and the outcome of the engine's
JSON and YAML marshalling of the value (`none` models a marshalling error,
`some d` the complete serialized buffer `d`). -/
structure EngineValue where
  hasError : Bool
  errMsg : String
  concrete : Bool
  json : Option String
  yaml : Option String
deriving Repr, DecidableEq

/-- Model of the external engine's Validate (cue.Value.Validate).  The flag
models the cue.Concrete option: with it set, a value that is free of hard
errors but not fully concrete still fails validation; without it only hard
errors fail.  Returns `some msg` for a validation error, `none` for success,
matching the Go API where Validate returns an error or nil. -/
def engineValidate (concreteOpt : Bool) (v : EngineValue) : Option String :=
  if v.hasError then some v.errMsg
  else if concreteOpt && !v.concrete then some "incomplete value (not concrete)"
  else none

/-- State of the CueContext registry of src/go-cue/go_cue.go: the map from
handle to stored value and the monotonically increasing counter nextID. -/
structure CueContext where
  values : Nat → Option EngineValue
  nextID : Nat

/-- The initial registry state: empty map, nextID = 1 (go_cue.go: the cueCtx
global is constructed with an empty values map and nextID: 1). -/
def initCtx : CueContext :=
  { values := fun _ => none, nextID := 1 }

/-- go_cue.go new_value: increments nextID, stores the value at the new
counter value, and returns that handle.  The first handle issued from the
initial state is therefore 2.  The counter is idealized as unbounded here;
new_value_wrap below models the source's uintptr wrap-around, and the two
agree while the counter stays below 2 ^ w - 1. -/
def new_value (v : EngineValue) (s : CueContext) : Nat × CueContext :=
  let addr := s.nextID + 1
  (addr, { values := fun k => if k = addr then some v else s.values k, nextID := addr })

/-- go_cue.go get_value: map lookup; `none` models the nil pointer returned
for a handle not present in the registry. -/
def get_value (s : CueContext) (addr : Nat) : Option EngineValue :=
  s.values addr

/-- go_cue.go remove_value: deletes the entry if present (Go map delete is a
no-op on an absent key); the counter is untouched. -/
def remove_value (s : CueContext) (addr : Nat) : CueContext :=
  { s with values := fun k => if k = addr then none else s.values k }

/-- go_cue.go cue_value_new: compiles the input text with the engine (the
engine compile function is a parameter; in Go, CompileString is total and
never fails at this layer) and inserts the resulting value, returning the
fresh handle and the updated registry. -/
def cue_value_new (ec : String → EngineValue) (input : String) (s : CueContext) :
    Nat × CueContext :=
  new_value (ec input) s

/-- go_cue.go cue_value_free: removes the entry for the handle. -/
def cue_value_free (addr : Nat) (s : CueContext) : CueContext :=
  remove_value s addr

/-- go_cue.go cue_value_validate: "unknown handle" for an absent handle;
otherwise the engine's Validate with the Concrete(true) option, returning the
error message, or "" when the value is valid. -/
def cue_value_validate (s : CueContext) (addr : Nat) : String :=
  match get_value s addr with
  | none => "unknown handle"
  | some v =>
    match engineValidate true v with
    | some msg => msg
    | none => ""

/-- go_cue.go cue_value_to_json: nil (`none`) for an unknown handle, nil for
a MarshalJSON failure, otherwise the complete marshalled buffer. -/
def cue_value_to_json (s : CueContext) (addr : Nat) : Option String :=
  match get_value s addr with
  | none => none
  | some v => v.json

/-- go_cue.go cue_value_to_yaml: nil (`none`) for an unknown handle, nil for
a yaml.Encode failure, otherwise the complete marshalled buffer. -/
def cue_value_to_yaml (s : CueContext) (addr : Nat) : Option String :=
  match get_value s addr with
  | none => none
  | some v => v.yaml

/-- go_cue.go cue_value_unify: resolves the first handle, and if unknown
returns it unchanged (registry untouched); then the second, likewise; when
both resolve, computes the engine unification (a parameter, total in the Go
API) and inserts the result under a brand-new handle via new_value. -/
def cue_value_unify (uf : EngineValue → EngineValue → EngineValue)
    (s : CueContext) (addr1 addr2 : Nat) : Nat × CueContext :=
  match get_value s addr1 with
  | none => (addr1, s)
  | some v1 =>
    match get_value s addr2 with
    | none => (addr2, s)
    | some v2 => new_value (uf v1 v2) s

/-- go_cue.go new_value with the source's uintptr arithmetic made explicit:
the Go field nextID has type uintptr, so the increment ctx.nextID++ wraps
modulo 2 ^ w for the target word size w (32 or 64).  The handle stored and
returned is the wrapped counter value. -/
def new_value_wrap (w : Nat) (v : EngineValue) (s : CueContext) :
    Nat × CueContext :=
  let addr := (s.nextID + 1) % 2 ^ w
  (addr, { values := fun k => if k = addr then some v else s.values k, nextID := addr })

/-- go_cue.go cue_value_unify with the uintptr wrap of the counter made
explicit: identical to cue_value_unify except that the insertion of the
unification result goes through new_value_wrap. -/
def cue_value_unify_wrap (w : Nat) (uf : EngineValue → EngineValue → EngineValue)
    (s : CueContext) (addr1 addr2 : Nat) : Nat × CueContext :=
  match get_value s addr1 with
  | none => (addr1, s)
  | some v1 =>
    match get_value s addr2 with
    | none => (addr2, s)
    | some v2 => new_value_wrap w (uf v1 v2) s

/-- A caller-side operation that can change the registry state, used to
state properties of whole runs of boundary calls.  The engine results
carried by compile and unify are arbitrary, so a run covers every possible
engine behaviour. -/
inductive Op where
  | compile : EngineValue → Op
  | free : Nat → Op
  | unify : (EngineValue → EngineValue → EngineValue) → Nat → Nat → Op

/-- The state after one operation, under the word-size-faithful counter. -/
def applyOp_wrap (w : Nat) (s : CueContext) : Op → CueContext
  | Op.compile v => (new_value_wrap w v s).2
  | Op.free a => cue_value_free a s
  | Op.unify uf a b => (cue_value_unify_wrap w uf s a b).2

/-- The state after a list of operations, first operation first, under the
word-size-faithful counter. -/
def run_wrap (w : Nat) (s : CueContext) : List Op → CueContext
  | [] => s
  | op :: ops => run_wrap w (applyOp_wrap w s op) ops

/-- Registry invariant: the counter is at least its initial value 1, and
every live handle lies in (1, nextID], i.e. was issued by the counter.  In
particular handles 0 and 1 are never live. -/
def RegInv (s : CueContext) : Prop :=
  1 ≤ s.nextID ∧ ∀ k, s.values k ≠ none → 2 ≤ k ∧ k ≤ s.nextID

/-- The registry states reachable from the initial state through the
state-changing boundary operations (validate and the serializers do not
touch the state). -/
inductive Reachable : CueContext → Prop where
  | init : Reachable initCtx
  | compile (v : EngineValue) (s : CueContext) :
      Reachable s → Reachable (new_value v s).2
  | free (a : Nat) (s : CueContext) :
      Reachable s → Reachable (cue_value_free a s)
  | unify (uf : EngineValue → EngineValue → EngineValue) (a b : Nat)
      (s : CueContext) : Reachable s → Reachable (cue_value_unify uf s a b).2

/-- The registry states reachable under the word-size-faithful operations
while the counter has not yet wrapped: each inserting step carries the
side condition that the incremented counter still fits below 2 ^ w.  A
unify whose inputs do not both resolve leaves the state unchanged, so
conditioning its step on the same bound excludes no state. -/
inductive ReachableNoWrap (w : Nat) : CueContext → Prop where
  | init : ReachableNoWrap w initCtx
  | compile (v : EngineValue) (s : CueContext) : ReachableNoWrap w s →
      s.nextID + 1 < 2 ^ w → ReachableNoWrap w (new_value_wrap w v s).2
  | free (a : Nat) (s : CueContext) : ReachableNoWrap w s →
      ReachableNoWrap w (cue_value_free a s)
  | unify (uf : EngineValue → EngineValue → EngineValue) (a b : Nat)
      (s : CueContext) : ReachableNoWrap w s → s.nextID + 1 < 2 ^ w →
      ReachableNoWrap w (cue_value_unify_wrap w uf s a b).2

namespace P1

/-- State of the earlier registry iteration of src/unnamed/part_001: same
map-plus-counter shape, but handles are issued as the counter's current
value, which is incremented after use. -/
structure State where
  values : Nat → Option EngineValue
  nextID : Nat

/-- part_001 initial state: empty map, nextID = 1. -/
def initState : State :=
  { values := fun _ => none, nextID := 1 }

/-- part_001 cue_value_new: issues id = nextID (so the first issued handle
is 1), stores the compiled value there, then increments the counter.  As
with new_value, the counter is idealized as unbounded here;
cue_value_new_wrap below models the source's uintptr wrap-around. -/
def cue_value_new (v : EngineValue) (s : State) : Nat × State :=
  (s.nextID,
   { values := fun k => if k = s.nextID then some v else s.values k,
     nextID := s.nextID + 1 })

/-- part_001 cue_value_new with the uintptr wrap of the counter made
explicit: the issued handle is the current counter value, and the
post-increment wraps modulo 2 ^ w. -/
def cue_value_new_wrap (w : Nat) (v : EngineValue) (s : State) : Nat × State :=
  (s.nextID,
   { values := fun k => if k = s.nextID then some v else s.values k,
     nextID := (s.nextID + 1) % 2 ^ w })

/-- part_001 cue_value_free: deletes the entry if present. -/
def cue_value_free (h : Nat) (s : State) : State :=
  { s with values := fun k => if k = h then none else s.values k }

/-- part_001 cue_value_validate: "unknown handle" for an absent handle;
otherwise the engine's Validate with no options (no concreteness demand). -/
def cue_value_validate (s : State) (h : Nat) : String :=
  match s.values h with
  | none => "unknown handle"
  | some v =>
    match engineValidate false v with
    | some msg => msg
    | none => ""

/-- States reachable in the part_001 iteration (it has no unify) under the
word-size-faithful counter, while the counter has not yet wrapped. -/
inductive ReachableNoWrap (w : Nat) : State → Prop where
  | init : ReachableNoWrap w initState
  | compile (v : EngineValue) (s : State) : ReachableNoWrap w s →
      s.nextID + 1 < 2 ^ w → ReachableNoWrap w (cue_value_new_wrap w v s).2
  | free (h : Nat) (s : State) : ReachableNoWrap w s →
      ReachableNoWrap w (cue_value_free h s)

/-- part_001 registry invariant: every live handle was issued, i.e. lies in
[1, nextID); handle 0 is never live. -/
def RegInv (s : State) : Prop :=
  1 ≤ s.nextID ∧ ∀ k, s.values k ≠ none → 1 ≤ k ∧ k < s.nextID

end P1

/-- A sample concrete engine value: no error, fully concrete, both
marshallings succeed. -/
def sampleValue : EngineValue :=
  { hasError := false, errMsg := "", concrete := true,
    json := some "1", yaml := some "1" }

/-- A sample engine value whose marshalling fails (still-open structure). -/
def openValue : EngineValue :=
  { hasError := false, errMsg := "", concrete := false,
    json := none, yaml := none }

/-- A sample engine unification function (the engine's Unify is opaque to
the registry layer; any total function exercises the wrapper). -/
def sampleUf : EngineValue → EngineValue → EngineValue :=
  fun a _ => a

/-- Concrete state: one compile from the initial state; handle 2 is live. -/
def ctx2 : CueContext := (new_value sampleValue initCtx).2

/-- Concrete state: two compiles from the initial state; handles 2 and 3 are
live, nextID = 3. -/
def ctx23 : CueContext := (new_value openValue ctx2).2

/-- Concrete state: both handles of ctx23 freed again. -/
def ctxFreed : CueContext := cue_value_free 3 (cue_value_free 2 ctx23)

/-! ## Helper lemmas -/

theorem get_value_new_self (v : EngineValue) (s : CueContext) :
    get_value (new_value v s).2 (new_value v s).1 = some v := by
  simp [get_value, new_value]

theorem get_value_new_other (v : EngineValue) (s : CueContext) (k : Nat)
    (hk : k ≠ s.nextID + 1) : get_value (new_value v s).2 k = get_value s k := by
  simp [get_value, new_value, hk]

theorem nextID_new_value (v : EngineValue) (s : CueContext) :
    ((new_value v s).2).nextID = s.nextID + 1 := rfl

theorem get_value_free_self (a : Nat) (s : CueContext) :
    get_value (cue_value_free a s) a = none := by
  simp [get_value, cue_value_free, remove_value]

theorem get_value_free_other (a : Nat) (s : CueContext) (k : Nat) (hk : k ≠ a) :
    get_value (cue_value_free a s) k = get_value s k := by
  simp [get_value, cue_value_free, remove_value, hk]

theorem unify_unknown_left (uf : EngineValue → EngineValue → EngineValue)
    (s : CueContext) (a b : Nat) (h : get_value s a = none) :
    cue_value_unify uf s a b = (a, s) := by
  simp [cue_value_unify, h]

theorem unify_unknown_right (uf : EngineValue → EngineValue → EngineValue)
    (s : CueContext) (a b : Nat) (v : EngineValue)
    (h1 : get_value s a = some v) (h2 : get_value s b = none) :
    cue_value_unify uf s a b = (b, s) := by
  simp [cue_value_unify, h1, h2]

theorem unify_known (uf : EngineValue → EngineValue → EngineValue)
    (s : CueContext) (a b : Nat) (v1 v2 : EngineValue)
    (h1 : get_value s a = some v1) (h2 : get_value s b = some v2) :
    cue_value_unify uf s a b = new_value (uf v1 v2) s := by
  simp [cue_value_unify, h1, h2]

theorem unify_state_cases (uf : EngineValue → EngineValue → EngineValue)
    (s : CueContext) (a b : Nat) :
    (cue_value_unify uf s a b).2 = s ∨
      ∃ w, cue_value_unify uf s a b = new_value w s := by
  unfold cue_value_unify
  cases hv1 : get_value s a with
  | none => exact Or.inl rfl
  | some v1 =>
    cases hv2 : get_value s b with
    | none => exact Or.inl rfl
    | some v2 => exact Or.inr ⟨uf v1 v2, rfl⟩

theorem regInv_init : RegInv initCtx := by
  refine ⟨le_refl 1, fun k hk => ?_⟩
  simp [initCtx] at hk

theorem regInv_new_value (v : EngineValue) (s : CueContext) (h : RegInv s) :
    RegInv (new_value v s).2 := by
  obtain ⟨h1, h2⟩ := h
  refine ⟨by simp only [new_value]; omega, fun k hk => ?_⟩
  simp only [new_value] at hk ⊢
  by_cases hke : k = s.nextID + 1
  · subst hke; constructor <;> omega
  · simp only [hke, if_false] at hk
    have := h2 k hk
    constructor <;> omega

theorem regInv_free (a : Nat) (s : CueContext) (h : RegInv s) :
    RegInv (cue_value_free a s) := by
  obtain ⟨h1, h2⟩ := h
  refine ⟨h1, fun k hk => ?_⟩
  simp only [cue_value_free, remove_value] at hk
  by_cases hke : k = a
  · simp [hke] at hk
  · simp only [hke, if_false] at hk
    exact h2 k hk

theorem regInv_unify (uf : EngineValue → EngineValue → EngineValue)
    (a b : Nat) (s : CueContext) (h : RegInv s) :
    RegInv (cue_value_unify uf s a b).2 := by
  rcases unify_state_cases uf s a b with hc | ⟨w, hc⟩
  · rw [hc]; exact h
  · rw [hc]; exact regInv_new_value w s h

theorem reachable_regInv {s : CueContext} (h : Reachable s) : RegInv s := by
  induction h with
  | init => exact regInv_init
  | compile v s _ ih => exact regInv_new_value v s ih
  | free a s _ ih => exact regInv_free a s ih
  | unify uf a b s _ ih => exact regInv_unify uf a b s ih

theorem regInv_get_none_zero {s : CueContext} (h : RegInv s) :
    get_value s 0 = none := by
  cases hv : s.values 0 with
  | none => exact hv
  | some v =>
    have := h.2 0 (by rw [hv]; exact fun hc => Option.noConfusion hc)
    omega

theorem regInv_get_none_one {s : CueContext} (h : RegInv s) :
    get_value s 1 = none := by
  cases hv : s.values 1 with
  | none => exact hv
  | some v =>
    have := h.2 1 (by rw [hv]; exact fun hc => Option.noConfusion hc)
    omega

theorem regInv_live_le {s : CueContext} (h : RegInv s) {k : Nat}
    {v : EngineValue} (hk : get_value s k = some v) : 2 ≤ k ∧ k ≤ s.nextID := by
  exact h.2 k (by rw [get_value] at hk; rw [hk]; exact fun hc => Option.noConfusion hc)

theorem ctx_eq (s t : CueContext) (hv : s.values = t.values)
    (hn : s.nextID = t.nextID) : s = t := by
  cases s; cases t; cases hv; cases hn; rfl

theorem regInv_ctx2 : RegInv ctx2 :=
  regInv_new_value sampleValue initCtx regInv_init

theorem regInv_ctx23 : RegInv ctx23 :=
  regInv_new_value openValue ctx2 regInv_ctx2

theorem P1.initState_regInv : P1.RegInv P1.initState := by
  refine ⟨le_refl 1, fun k hk => ?_⟩
  simp [P1.initState] at hk

theorem P1.regInv_new (v : EngineValue) (s : P1.State) (h : P1.RegInv s) :
    P1.RegInv (P1.cue_value_new v s).2 := by
  obtain ⟨h1, h2⟩ := h
  constructor
  · show (1 : Nat) ≤ s.nextID + 1
    omega
  · intro k hk
    show 1 ≤ k ∧ k < s.nextID + 1
    have hk2 : (if k = s.nextID then some v else s.values k) ≠ none := hk
    by_cases hke : k = s.nextID
    · subst hke; omega
    · rw [if_neg hke] at hk2
      have := h2 k hk2
      omega

theorem P1.free_regInv (a : Nat) (s : P1.State) (h : P1.RegInv s) :
    P1.RegInv (P1.cue_value_free a s) := by
  obtain ⟨h1, h2⟩ := h
  refine ⟨h1, fun k hk => ?_⟩
  simp only [P1.cue_value_free] at hk
  by_cases hke : k = a
  · simp [hke] at hk
  · simp only [hke, if_false] at hk
    exact h2 k hk

theorem P1.new_wrap_eq_of_lt (w : Nat) (v : EngineValue) (s : P1.State)
    (hb : s.nextID + 1 < 2 ^ w) :
    P1.cue_value_new_wrap w v s = P1.cue_value_new v s := by
  unfold P1.cue_value_new_wrap P1.cue_value_new
  rw [Nat.mod_eq_of_lt hb]

theorem P1.reachableNoWrap_inv {w : Nat} {s : P1.State}
    (h : P1.ReachableNoWrap w s) : P1.RegInv s := by
  induction h with
  | init => exact P1.initState_regInv
  | compile v s _ hb ih =>
    rw [P1.new_wrap_eq_of_lt w v s hb]
    exact P1.regInv_new v s ih
  | free a s _ ih => exact P1.free_regInv a s ih

theorem P1.regInv_zero {s : P1.State} (h : P1.RegInv s) : s.values 0 = none := by
  cases hv : s.values 0 with
  | none => rfl
  | some v =>
    have := h.2 0 (by rw [hv]; exact fun hc => Option.noConfusion hc)
    omega

theorem new_value_wrap_eq_of_lt (w : Nat) (v : EngineValue) (s : CueContext)
    (hb : s.nextID + 1 < 2 ^ w) : new_value_wrap w v s = new_value v s := by
  unfold new_value_wrap new_value
  rw [Nat.mod_eq_of_lt hb]

theorem new_value_wrap_fst (w : Nat) (v : EngineValue) (s : CueContext) :
    (new_value_wrap w v s).1 = (s.nextID + 1) % 2 ^ w := rfl

theorem get_value_new_wrap_self (w : Nat) (v : EngineValue) (s : CueContext) :
    get_value (new_value_wrap w v s).2 (new_value_wrap w v s).1 = some v := by
  simp [get_value, new_value_wrap]

theorem unify_wrap_unknown_left (w : Nat)
    (uf : EngineValue → EngineValue → EngineValue) (s : CueContext)
    (a b : Nat) (h : get_value s a = none) :
    cue_value_unify_wrap w uf s a b = (a, s) := by
  simp [cue_value_unify_wrap, h]

theorem unify_wrap_state_cases (w : Nat)
    (uf : EngineValue → EngineValue → EngineValue) (s : CueContext)
    (a b : Nat) :
    (cue_value_unify_wrap w uf s a b).2 = s ∨
      ∃ v, cue_value_unify_wrap w uf s a b = new_value_wrap w v s := by
  unfold cue_value_unify_wrap
  cases hv1 : get_value s a with
  | none => exact Or.inl rfl
  | some v1 =>
    cases hv2 : get_value s b with
    | none => exact Or.inl rfl
    | some v2 => exact Or.inr ⟨uf v1 v2, rfl⟩

theorem reachableNoWrap_regInv {w : Nat} {s : CueContext}
    (h : ReachableNoWrap w s) : RegInv s := by
  induction h with
  | init => exact regInv_init
  | compile v s _ hb ih =>
    rw [new_value_wrap_eq_of_lt w v s hb]
    exact regInv_new_value v s ih
  | free a s _ ih => exact regInv_free a s ih
  | unify uf a b s _ hb ih =>
    rcases unify_wrap_state_cases w uf s a b with hc | ⟨v, hc⟩
    · rw [hc]; exact ih
    · rw [hc, new_value_wrap_eq_of_lt w v s hb]
      exact regInv_new_value v s ih

theorem run_wrap_append (w : Nat) (s : CueContext) (l1 l2 : List Op) :
    run_wrap w s (l1 ++ l2) = run_wrap w (run_wrap w s l1) l2 := by
  induction l1 generalizing s with
  | nil => rfl
  | cons op ops ih =>
    simp only [List.cons_append, run_wrap]
    exact ih _

theorem nextID_run_wrap_replicate (w k : Nat) (v : EngineValue)
    (s : CueContext) (hs : s.nextID < 2 ^ w) :
    (run_wrap w s (List.replicate k (Op.compile v))).nextID =
      (s.nextID + k) % 2 ^ w := by
  induction k generalizing s with
  | zero => simp [run_wrap, Nat.mod_eq_of_lt hs]
  | succ k ih =>
    rw [List.replicate_succ]
    simp only [run_wrap]
    have hs2 : (applyOp_wrap w s (Op.compile v)).nextID < 2 ^ w := by
      show (s.nextID + 1) % 2 ^ w < 2 ^ w
      exact Nat.mod_lt _ (Nat.pos_pow_of_pos w (by omega))
    rw [ih _ hs2]
    show ((s.nextID + 1) % 2 ^ w + k) % 2 ^ w = (s.nextID + (k + 1)) % 2 ^ w
    rw [Nat.mod_add_mod]
    congr 1
    omega

/-! ## Claim theorems -/

/-- C1, counterexample: in the concrete reachable state ctx23 (handles 2 and
3 live, nextID = 3), unify with the unknown first handle 4 returns 4 itself
and inserts nothing, while a successful unify of the live handles 2 and 3 in
the very same state also returns 4 (and does insert an entry there): the
unknown-handle return is the echoed input handle, not a distinguished
UnknownHandle failure result, and it is indistinguishable from the handle a
valid unify returns. -/
theorem unify_unknown_echo_counterexample :
    get_value ctx23 4 = none ∧
    cue_value_unify sampleUf ctx23 4 2 = (4, ctx23) ∧
    (cue_value_unify sampleUf ctx23 2 3).1 = 4 ∧
    get_value (cue_value_unify sampleUf ctx23 2 3).2 4 = some sampleValue :=
  ⟨rfl, rfl, rfl, rfl⟩

/-- C1 (amended): for every pair of input handles where at least one is not
present in the registry, unify inserts no new entry and returns with the
registry unchanged — but the returned value is the (first) unknown input
handle itself, echoed back, rather than a distinguished UnknownHandle
failure result. -/
theorem unify_unknown_no_new_entry (uf : EngineValue → EngineValue → EngineValue)
    (s : CueContext) (a b : Nat) :
    (get_value s a = none → cue_value_unify uf s a b = (a, s)) ∧
    (∀ v, get_value s a = some v → get_value s b = none →
      cue_value_unify uf s a b = (b, s)) :=
  ⟨fun h => unify_unknown_left uf s a b h,
   fun v h1 h2 => unify_unknown_right uf s a b v h1 h2⟩

/-- C1, witness: unifying the never-issued handles 5 and 7 in the initial
state returns 5 and leaves the registry untouched. -/
theorem unify_unknown_no_new_entry_witness :
    cue_value_unify sampleUf initCtx 5 7 = (5, initCtx) :=
  (unify_unknown_no_new_entry sampleUf initCtx 5 7).1 rfl

/-- C2, counterexample: in the concrete state ctxFreed, where handles 2 and 3
were issued by compile and then freed, unify on the freed handle 2 returns 2
and unify on the freed handle 3 returns 3: the operation hands the stale
freed handle value itself back to the caller, a result that varies with the
input, so unify does not return a distinguished UnknownHandle result after
free. -/
theorem unify_after_free_counterexample :
    get_value ctxFreed 2 = none ∧
    get_value ctxFreed 3 = none ∧
    (cue_value_unify sampleUf ctxFreed 2 9).1 = 2 ∧
    (cue_value_unify sampleUf ctxFreed 3 9).1 = 3 :=
  ⟨rfl, rfl, rfl, rfl⟩

/-- C2 (amended): after free(H) the lookup for H fails, and on any handle
that is absent from the registry (freed, 0, or never issued) validate
returns the "unknown handle" diagnostic, toJson and toYaml return the null
failure sentinel, and unify leaves the registry unchanged and inserts no
entry — but unify returns the unknown handle H itself rather than a
distinguished UnknownHandle result. -/
theorem ops_on_unknown_handle (s : CueContext) (h : Nat) :
    get_value (cue_value_free h s) h = none ∧
    (get_value s h = none →
      cue_value_validate s h = "unknown handle" ∧
      cue_value_to_json s h = none ∧
      cue_value_to_yaml s h = none ∧
      ∀ uf b, cue_value_unify uf s h b = (h, s)) := by
  refine ⟨get_value_free_self h s, fun hn =>
    ⟨?_, ?_, ?_, fun uf b => unify_unknown_left uf s h b hn⟩⟩
  · simp [cue_value_validate, hn]
  · simp [cue_value_to_json, hn]
  · simp [cue_value_to_yaml, hn]

/-- C2, witness: on the freed handle 2 of ctxFreed, validate reports the
unknown-handle diagnostic and toJson the null sentinel. -/
theorem ops_on_unknown_handle_witness :
    cue_value_validate ctxFreed 2 = "unknown handle" ∧
    cue_value_to_json ctxFreed 2 = none :=
  ⟨((ops_on_unknown_handle ctxFreed 2).2 rfl).1,
   ((ops_on_unknown_handle ctxFreed 2).2 rfl).2.1⟩

/-- C3: for every known handle, validate returns the empty diagnostic exactly
when the stored value is error-free and fully concrete; in particular a value
with unresolved open constraints and no hard error still yields a non-empty
diagnostic (the wrapper passes the Concrete(true) option).  The hypothesis
that the engine reports hard errors with a non-empty message reflects the Go
error contract. -/
theorem validate_requires_concreteness (s : CueContext) (h : Nat)
    (v : EngineValue) (hv : get_value s h = some v)
    (hmsg : v.hasError = true → v.errMsg ≠ "") :
    (cue_value_validate s h = "" ↔ v.hasError = false ∧ v.concrete = true) ∧
    (v.hasError = false → v.concrete = false → cue_value_validate s h ≠ "") := by
  have hval : cue_value_validate s h =
      (match engineValidate true v with
       | some msg => msg
       | none => "") := by
    simp [cue_value_validate, hv]
  cases hErr : v.hasError with
  | true =>
    have hval2 : cue_value_validate s h = v.errMsg := by
      rw [hval]; simp [engineValidate, hErr]
    refine ⟨?_, fun hc1 => ?_⟩
    · rw [hval2]
      constructor
      · intro hc
        exact absurd hc (hmsg hErr)
      · rintro ⟨hc, -⟩
        exact absurd hc (by decide)
    · exact absurd hc1 (by decide)
  | false =>
    cases hConc : v.concrete with
    | true =>
      have hval2 : cue_value_validate s h = "" := by
        rw [hval]; simp [engineValidate, hErr, hConc]
      refine ⟨?_, fun hc1 hc2 => ?_⟩
      · rw [hval2]
        simp
      · exact absurd hc2 (by decide)
    | false =>
      have hval2 : cue_value_validate s h = "incomplete value (not concrete)" := by
        rw [hval]; simp [engineValidate, hErr, hConc]
      refine ⟨?_, fun hc1 hc2 => ?_⟩
      · rw [hval2]
        constructor
        · intro hc
          exact absurd hc (by decide)
        · rintro ⟨-, hc⟩
          exact absurd hc (by decide)
      · rw [hval2]
        decide

/-- C3, witness: in ctx2 the handle 2 holds the concrete, error-free
sampleValue and validates with the empty diagnostic. -/
theorem validate_requires_concreteness_witness :
    cue_value_validate ctx2 2 = "" :=
  ((validate_requires_concreteness ctx2 2 sampleValue rfl (by decide)).1).mpr
    (by decide)

/-- C4: the code does not meet the spec's counter invariant.  The nextID
field is a Go uintptr, so on a 32-bit target (uintptr is 32 bits) its
increment wraps modulo 2 ^ 32: evaluated at the concrete failing input of
2 ^ 32 - 1 consecutive compile calls from the initial state, the counter
goes from 1 to 0 — it decreases — and after 2 ^ 32 further compiles the
very handle 2 that was issued first is issued again — a repeat.  Freed
entries keep the map small while the counter keeps advancing, so this run
is not blocked by memory, and the spec names never-decrease/never-repeat a
correctness requirement (it prevents handle aliasing). -/
theorem counter_wraps_on_32bit :
    initCtx.nextID = 1 ∧
    (run_wrap 32 initCtx
      (List.replicate (2 ^ 32 - 1) (Op.compile sampleValue))).nextID = 0 ∧
    (new_value_wrap 32 sampleValue initCtx).1 = 2 ∧
    (new_value_wrap 32 sampleValue (run_wrap 32 initCtx
      (List.replicate (2 ^ 32) (Op.compile sampleValue)))).1 = 2 := by
  refine ⟨rfl, ?_, ?_, ?_⟩
  · exact (nextID_run_wrap_replicate 32 (2 ^ 32 - 1) sampleValue initCtx
      (by norm_num [initCtx])).trans (by norm_num [initCtx])
  · exact (new_value_wrap_fst 32 sampleValue initCtx).trans
      (by norm_num [initCtx])
  · have h2 : (run_wrap 32 initCtx
        (List.replicate (2 ^ 32) (Op.compile sampleValue))).nextID = 1 :=
      (nextID_run_wrap_replicate 32 (2 ^ 32) sampleValue initCtx
        (by norm_num [initCtx])).trans (by norm_num [initCtx])
    exact (new_value_wrap_fst 32 sampleValue _).trans
      ((congrArg (fun x => (x + 1) % 2 ^ 32) h2).trans (by norm_num))

/-- C5: compile never fails at this layer: for every engine compile function
and every source text (malformed input included — the engine records compile
errors inside the value), cue_value_new returns a handle under which the
compiled value was newly inserted, and the entry persists — lookups keep
succeeding — under every subsequent operation except a free of that very
handle: compile, free of another handle, and unify all preserve it (using
the registry invariant). -/
theorem compile_inserts_and_persists (ec : String → EngineValue)
    (input : String) (s : CueContext) :
    get_value (cue_value_new ec input s).2 (cue_value_new ec input s).1 =
      some (ec input) ∧
    (RegInv s → ∀ h v, get_value s h = some v →
      (∀ w, get_value (new_value w s).2 h = some v) ∧
      (∀ a, a ≠ h → get_value (cue_value_free a s) h = some v) ∧
      (∀ uf a b, get_value (cue_value_unify uf s a b).2 h = some v)) := by
  refine ⟨get_value_new_self (ec input) s, fun hinv h v hv => ⟨?_, ?_, ?_⟩⟩
  · intro w
    have hle := (regInv_live_le hinv hv).2
    rw [get_value_new_other w s h (by omega)]
    exact hv
  · intro a ha
    rw [get_value_free_other a s h (Ne.symm ha)]
    exact hv
  · intro uf a b
    rcases unify_state_cases uf s a b with hc | ⟨w, hc⟩
    · rw [hc]; exact hv
    · rw [hc]
      have hle := (regInv_live_le hinv hv).2
      rw [get_value_new_other w s h (by omega)]
      exact hv

/-- C5, witness: compiling in ctx2 inserts the new value under the fresh
handle, and the existing entry for handle 2 survives a further compile. -/
theorem compile_inserts_and_persists_witness :
    get_value (cue_value_new (fun _ => openValue) "age: int" ctx2).2
      (cue_value_new (fun _ => openValue) "age: int" ctx2).1 = some openValue ∧
    get_value (new_value openValue ctx2).2 2 = some sampleValue :=
  ⟨(compile_inserts_and_persists (fun _ => openValue) "age: int" ctx2).1,
   ((compile_inserts_and_persists (fun _ => openValue) "age: int" ctx2).2
      regInv_ctx2 2 sampleValue rfl).1 openValue⟩

/-- C6: unify of two known handles returns the fresh handle nextID + 1,
stores the engine unification result there, and leaves every other entry of
the registry — in particular the entries of the two input handles —
unchanged, so the inputs remain independently valid and freeable. -/
theorem unify_preserves_inputs (uf : EngineValue → EngineValue → EngineValue)
    (s : CueContext) (a b : Nat) (v1 v2 : EngineValue) (hinv : RegInv s)
    (h1 : get_value s a = some v1) (h2 : get_value s b = some v2) :
    (cue_value_unify uf s a b).1 = s.nextID + 1 ∧
    get_value (cue_value_unify uf s a b).2 a = some v1 ∧
    get_value (cue_value_unify uf s a b).2 b = some v2 ∧
    get_value (cue_value_unify uf s a b).2 (cue_value_unify uf s a b).1 =
      some (uf v1 v2) ∧
    (∀ k, k ≠ s.nextID + 1 →
      get_value (cue_value_unify uf s a b).2 k = get_value s k) := by
  have hc := unify_known uf s a b v1 v2 h1 h2
  rw [hc]
  have ha := (regInv_live_le hinv h1).2
  have hb := (regInv_live_le hinv h2).2
  refine ⟨rfl, ?_, ?_, get_value_new_self _ s,
    fun k hk => get_value_new_other _ s k hk⟩
  · rw [get_value_new_other _ s a (by omega)]
    exact h1
  · rw [get_value_new_other _ s b (by omega)]
    exact h2

/-- C6, witness: unifying the live handles 2 and 3 of ctx23 leaves both
input entries in place. -/
theorem unify_preserves_inputs_witness :
    get_value (cue_value_unify sampleUf ctx23 2 3).2 2 = some sampleValue ∧
    get_value (cue_value_unify sampleUf ctx23 2 3).2 3 = some openValue :=
  ⟨(unify_preserves_inputs sampleUf ctx23 2 3 sampleValue openValue
      regInv_ctx23 rfl rfl).2.1,
   (unify_preserves_inputs sampleUf ctx23 2 3 sampleValue openValue
      regInv_ctx23 rfl rfl).2.2.1⟩

/-- C7: freeing a handle that is not present in the registry (never issued
or already removed) is a no-op: the resulting state equals the input state,
and free signals nothing (it has no result channel at all). -/
theorem free_unknown_noop (s : CueContext) (h : Nat)
    (hn : get_value s h = none) : cue_value_free h s = s := by
  rw [get_value] at hn
  refine ctx_eq _ _ ?_ rfl
  funext k
  show (if k = h then none else s.values k) = s.values k
  by_cases hk : k = h
  · subst hk
    rw [if_pos rfl, hn]
  · rw [if_neg hk]

/-- C7, witness: freeing the never-issued handle 9 in ctx2 returns ctx2
itself. -/
theorem free_unknown_noop_witness : cue_value_free 9 ctx2 = ctx2 :=
  free_unknown_noop ctx2 9 rfl

/-- C8: toJson and toYaml return either the complete engine-marshalled
buffer or the null failure sentinel: the result is the sentinel exactly when
the handle is unknown or the engine marshalling of the stored value fails,
and any returned buffer is exactly the engine's complete marshalling output
for the stored value — never a partial buffer. -/
theorem serialize_complete_or_failure (s : CueContext) (h : Nat) :
    (cue_value_to_json s h = none ↔
      get_value s h = none ∨ ∃ v, get_value s h = some v ∧ v.json = none) ∧
    (∀ d, cue_value_to_json s h = some d →
      ∃ v, get_value s h = some v ∧ v.json = some d) ∧
    (cue_value_to_yaml s h = none ↔
      get_value s h = none ∨ ∃ v, get_value s h = some v ∧ v.yaml = none) ∧
    (∀ d, cue_value_to_yaml s h = some d →
      ∃ v, get_value s h = some v ∧ v.yaml = some d) := by
  cases hv : get_value s h with
  | none => simp [cue_value_to_json, cue_value_to_yaml, hv]
  | some v => simp [cue_value_to_json, cue_value_to_yaml, hv]

/-- C8, witness: in ctx23, handle 2 serializes to its complete JSON buffer,
and the unknown handle 9 yields the null sentinel. -/
theorem serialize_complete_or_failure_witness :
    cue_value_to_json ctx23 9 = none ∧
    (∃ v, get_value ctx23 2 = some v ∧ v.json = some "1") :=
  ⟨(serialize_complete_or_failure ctx23 9).1.mpr (Or.inl rfl),
   (serialize_complete_or_failure ctx23 2).2.1 "1" rfl⟩

/-- C9: the serializers return the identical null sentinel both for an
unknown handle and for a known handle whose value the engine fails to
marshal, so the caller cannot distinguish UnknownHandle from EncodingError
from the serialize result alone. -/
theorem serialize_failures_indistinguishable (s : CueContext) (h1 h2 : Nat)
    (v : EngineValue) (hu : get_value s h1 = none)
    (hk : get_value s h2 = some v) (hj : v.json = none) (hy : v.yaml = none) :
    cue_value_to_json s h1 = none ∧ cue_value_to_json s h2 = none ∧
    cue_value_to_json s h1 = cue_value_to_json s h2 ∧
    cue_value_to_yaml s h1 = none ∧ cue_value_to_yaml s h2 = none ∧
    cue_value_to_yaml s h1 = cue_value_to_yaml s h2 := by
  simp [cue_value_to_json, cue_value_to_yaml, hu, hk, hj, hy]

/-- C9, witness: in ctx23 the unknown handle 9 and the live handle 3 (whose
openValue fails to marshal) both yield the null JSON sentinel. -/
theorem serialize_failures_indistinguishable_witness :
    cue_value_to_json ctx23 9 = none ∧ cue_value_to_json ctx23 3 = none :=
  ⟨(serialize_failures_indistinguishable ctx23 9 3 openValue rfl rfl rfl rfl).1,
   (serialize_failures_indistinguishable ctx23 9 3 openValue rfl rfl rfl rfl).2.1⟩

/-- C10, counterexample: under the source's uintptr arithmetic the handle
value 0 is reachable as a live handle: after the concrete run of
2 ^ 32 - 1 compile calls from the initial state on a 32-bit target, the
registry holds an entry under handle 0 (the last insertion wrapped the
counter from 2 ^ 32 - 1 to 0), so 0 is not "never issued and never live in
every reachable state". -/
theorem zero_live_after_wrap_counterexample :
    get_value (run_wrap 32 initCtx
      (List.replicate (2 ^ 32 - 1) (Op.compile sampleValue))) 0 =
      some sampleValue := by
  have hprev : (run_wrap 32 initCtx
      (List.replicate (2 ^ 32 - 2) (Op.compile sampleValue))).nextID =
      2 ^ 32 - 1 :=
    (nextID_run_wrap_replicate 32 (2 ^ 32 - 2) sampleValue initCtx
      (by norm_num [initCtx])).trans (by norm_num [initCtx])
  have hlist : List.replicate (2 ^ 32 - 1) (Op.compile sampleValue) =
      List.replicate (2 ^ 32 - 2) (Op.compile sampleValue) ++
        [Op.compile sampleValue] := by
    have h21 : (2 : Nat) ^ 32 - 1 = (2 ^ 32 - 2) + 1 := by norm_num
    rw [h21, List.replicate_succ']
  have hrun : run_wrap 32 initCtx
      (List.replicate (2 ^ 32 - 1) (Op.compile sampleValue)) =
      (new_value_wrap 32 sampleValue (run_wrap 32 initCtx
        (List.replicate (2 ^ 32 - 2) (Op.compile sampleValue)))).2 :=
    (congrArg (run_wrap 32 initCtx) hlist).trans
      (run_wrap_append 32 initCtx
        (List.replicate (2 ^ 32 - 2) (Op.compile sampleValue))
        [Op.compile sampleValue])
  have h0 : (new_value_wrap 32 sampleValue (run_wrap 32 initCtx
      (List.replicate (2 ^ 32 - 2) (Op.compile sampleValue)))).1 = 0 :=
    (new_value_wrap_fst 32 sampleValue _).trans
      ((congrArg (fun x => (x + 1) % 2 ^ 32) hprev).trans (by norm_num))
  exact (congrArg (fun st => get_value st 0) hrun).trans
    ((congrArg (get_value (new_value_wrap 32 sampleValue (run_wrap 32 initCtx
        (List.replicate (2 ^ 32 - 2) (Op.compile sampleValue)))).2)
      h0.symm).trans
      (get_value_new_wrap_self 32 sampleValue (run_wrap 32 initCtx
        (List.replicate (2 ^ 32 - 2) (Op.compile sampleValue)))))

/-- C10 (amended): under the word-size-faithful counter, in every state
reached before the counter wraps (ReachableNoWrap), the handle values 0
and 1 are never live: validate answers "unknown handle", both serializers
answer the null sentinel, and unify echoes them back leaving the registry
unchanged; the first handle issued from the initial state is 2 (for any
word size with 2 ^ w > 2, so on every real target).  In the part_001
iteration, handle 0 is likewise never live in any state reached before the
wrap, while its first issued handle is 1.  Once the uintptr counter wraps
(a 32-bit target can reach this within a process's life), handles 0 and 1
do get issued, as the counterexample shows. -/
theorem zero_and_one_not_issued_before_wrap :
    (∀ w s, ReachableNoWrap w s →
      get_value s 0 = none ∧ get_value s 1 = none ∧
      cue_value_validate s 0 = "unknown handle" ∧
      cue_value_validate s 1 = "unknown handle" ∧
      cue_value_to_json s 0 = none ∧ cue_value_to_yaml s 0 = none ∧
      cue_value_to_json s 1 = none ∧ cue_value_to_yaml s 1 = none ∧
      (∀ uf b, cue_value_unify_wrap w uf s 0 b = (0, s)) ∧
      (∀ uf b, cue_value_unify_wrap w uf s 1 b = (1, s))) ∧
    (∀ w v, 2 < 2 ^ w → (new_value_wrap w v initCtx).1 = 2) ∧
    (∀ w t, P1.ReachableNoWrap w t →
      t.values 0 = none ∧ P1.cue_value_validate t 0 = "unknown handle") ∧
    (∀ w v, (P1.cue_value_new_wrap w v P1.initState).1 = 1) := by
  refine ⟨fun w s hs => ?_, fun w v hw => ?_, fun w t ht => ?_,
    fun w v => rfl⟩
  · have hinv := reachableNoWrap_regInv hs
    have h0 := regInv_get_none_zero hinv
    have h1 := regInv_get_none_one hinv
    refine ⟨h0, h1, ?_, ?_, ?_, ?_, ?_, ?_,
      fun uf b => unify_wrap_unknown_left w uf s 0 b h0,
      fun uf b => unify_wrap_unknown_left w uf s 1 b h1⟩
    · simp [cue_value_validate, h0]
    · simp [cue_value_validate, h1]
    · simp [cue_value_to_json, h0]
    · simp [cue_value_to_yaml, h0]
    · simp [cue_value_to_json, h1]
    · simp [cue_value_to_yaml, h1]
  · show (1 + 1) % 2 ^ w = 2
    exact Nat.mod_eq_of_lt hw
  · have hinv := P1.reachableNoWrap_inv ht
    have h0 := P1.regInv_zero hinv
    refine ⟨h0, ?_⟩
    simp [P1.cue_value_validate, h0]

/-- C10, witness: in the initial states of both registry iterations the
handle 0 is unknown to validate, and with the 32-bit word size the first
handle issued from the initial state is 2. -/
theorem zero_and_one_not_issued_before_wrap_witness :
    cue_value_validate initCtx 0 = "unknown handle" ∧
    P1.cue_value_validate P1.initState 0 = "unknown handle" ∧
    (new_value_wrap 32 sampleValue initCtx).1 = 2 :=
  ⟨(zero_and_one_not_issued_before_wrap.1 32 initCtx
      ReachableNoWrap.init).2.2.1,
   (zero_and_one_not_issued_before_wrap.2.2.1 32 P1.initState
      P1.ReachableNoWrap.init).2,
   zero_and_one_not_issued_before_wrap.2.1 32 sampleValue (by norm_num)⟩
